import Mathlib

/-!
# Verification of the websocket-proxy PROXY-protocol decoder and routing helpers

A shallow embedding of `proxy/proxyprotocol/proxy_protocol.go` (the `Conn`
wrapper: `checkPrefix`, `Read`, `RemoteAddr`), of the Go standard-library
functions it calls (`strconv.Atoi`, `net.ParseIP`, `strings.Split`,
`bufio.Reader.Peek` / `ReadString`, `net.TCPAddr.String`), and of the
backend test helpers (`echoHandler.Handle`, the `getHandler` routing rule).

Go byte strings are modelled as `List Char` (all relevant bytes are ASCII);
machine integers that can overflow (`strconv.Atoi`) are modelled as `Int`
with an explicit 64-bit range check.
-/

namespace WsProxy

abbrev GoStr := List Char

/-- A named space character, used to split header fields. -/
def spaceChar : Char := ' '

/-- A named newline character, the delimiter `ReadString` reads up to. -/
def nlChar : Char := '\n'

/-- A named carriage-return character. -/
def crChar : Char := '\r'

/-- A named dot character, used by `net.ParseIP` dispatch and IPv4 fields. -/
def dotChar : Char := '.'

/-- A named colon character, used by `net.ParseIP` dispatch and IPv6 fields. -/
def colonChar : Char := ':'

def isDigit (c : Char) : Bool := decide ('0' ≤ c) && decide (c ≤ '9')

def digitVal (c : Char) : Nat := c.toNat - '0'.toNat

/-! ## Model of Go `strconv.Atoi`

`strconv.Atoi(s)` is `ParseInt(s, 10, 0)` with int size 64: an optional
leading sign, then one or more decimal digits, with a 64-bit range check.
On any syntax or range error it returns a non-nil error, which the proxy
code treats as "invalid port"; we model errors as `none`. -/

def natOfDigitsAux (acc : Nat) : GoStr → Option Nat
  | [] => some acc
  | c :: cs => if isDigit c then natOfDigitsAux (acc * 10 + digitVal c) cs else none

def atoi (s : GoStr) : Option Int :=
  let signed : Bool × GoStr :=
    match s with
    | '+' :: r => (false, r)
    | '-' :: r => (true, r)
    | r => (false, r)
  match signed.2 with
  | [] => none
  | ds =>
    match natOfDigitsAux 0 ds with
    | none => none
    | some n =>
      let v : Int := if signed.1 then -(n : Int) else (n : Int)
      if v < -(2 ^ 63) ∨ (2 ^ 63 - 1) < v then none else some v

/-! ## Model of Go `net.ParseIP`

An IP is its 16-byte representation (`List Nat`, each entry < 256); a
parsed IPv4 address is stored in Go's IPv4-in-IPv6 form, as `net.IPv4`
does. `dtoi` / `xtoi` mirror Go's decimal/hex field scanners, including
the `big = 0xFFFFFF` overflow cut-off and the "at least one digit"
requirement. -/

abbrev IPBytes := List Nat

/-- Go `net`'s decimal scanner cut-off constant `big`. -/
def bigCut : Nat := 0xFFFFFF

/-- Decimal scanner: returns (value, consumed count, rest, ok); mirrors
`dtoi` from Go `net`: stops at the first non-digit, fails on overflow
(value reaching `big`) or when no digit was consumed. -/
def dtoiLoop (n : Nat) (consumed : Nat) : GoStr → Nat × Nat × GoStr × Bool
  | [] => (n, consumed, [], true)
  | c :: cs =>
    if isDigit c then
      let n' := n * 10 + digitVal c
      if bigCut ≤ n' then (0, consumed + 1, cs, false)
      else dtoiLoop n' (consumed + 1) cs
    else (n, consumed, c :: cs, true)

def dtoi (s : GoStr) : Nat × GoStr × Bool :=
  match dtoiLoop 0 0 s with
  | (n, consumed, rest, ok) => (n, rest, ok && !(consumed == 0))

def isHexDigit (c : Char) : Bool :=
  isDigit c || (decide ('a' ≤ c) && decide (c ≤ 'f')) || (decide ('A' ≤ c) && decide (c ≤ 'F'))

def hexVal (c : Char) : Nat :=
  if isDigit c then digitVal c
  else if decide ('a' ≤ c) && decide (c ≤ 'f') then c.toNat - 'a'.toNat + 10
  else c.toNat - 'A'.toNat + 10

/-- Hexadecimal scanner mirroring `xtoi` from Go `net`. -/
def xtoiLoop (n : Nat) (consumed : Nat) : GoStr → Nat × Nat × GoStr × Bool
  | [] => (n, consumed, [], true)
  | c :: cs =>
    if isHexDigit c then
      let n' := n * 16 + hexVal c
      if bigCut ≤ n' then (0, consumed + 1, cs, false)
      else xtoiLoop n' (consumed + 1) cs
    else (n, consumed, c :: cs, true)

def xtoi (s : GoStr) : Nat × GoStr × Bool :=
  match xtoiLoop 0 0 s with
  | (n, consumed, rest, ok) => (n, rest, ok && !(consumed == 0))

/-- Go's `v4InV6Prefix` followed by the four IPv4 bytes: the 16-byte form
`net.IPv4(a,b,c,d)` produces. -/
def v4InV6 (a b c d : Nat) : IPBytes :=
  [0, 0, 0, 0, 0, 0, 0, 0, 0, 0, 0xff, 0xff, a, b, c, d]

/-- One decimal octet, at most 0xFF, mirroring the per-field logic of
Go `parseIPv4`. -/
def parseOctet (s : GoStr) : Option (Nat × GoStr) :=
  match dtoi s with
  | (n, rest, ok) => if ok && decide (n ≤ 0xFF) then some (n, rest) else none

/-- `k` further octets, each preceded by a literal dot. -/
def parseDotOctets : Nat → GoStr → Option (List Nat × GoStr)
  | 0, s => some ([], s)
  | k + 1, s =>
    match s with
    | c :: s1 =>
      if c = dotChar then
        match parseOctet s1 with
        | some (n, rest) =>
          match parseDotOctets k rest with
          | some (ns, rest2) => some (n :: ns, rest2)
          | none => none
        | none => none
      else none
    | [] => none

/-- Model of Go `parseIPv4`: exactly four dot-separated decimal octets
consuming the entire string, returned in IPv4-in-IPv6 16-byte form. -/
def parseIPv4 (s : GoStr) : Option IPBytes :=
  match parseOctet s with
  | none => none
  | some (n0, rest) =>
    match parseDotOctets 3 rest with
    | none => none
    | some (ns, rest2) =>
      if rest2 = [] then
        match ns with
        | [b, c, d] => some (v4InV6 n0 b c d)
        | _ => none
      else none

/-- Final phase of Go `parseIPv6`: the entire string must have been
consumed; a short address needs an ellipsis, which expands to zero bytes
at its recorded position; a full 16-byte address must not also carry an
ellipsis. -/
def parseIPv6Finish (acc : List Nat) (ell : Option Nat) (s : GoStr) : Option IPBytes :=
  if s ≠ [] then none
  else if acc.length < 16 then
    match ell with
    | none => none
    | some e => some (acc.take e ++ List.replicate (16 - acc.length) 0 ++ acc.drop e)
  else if ell.isSome then none
  else some acc

/-- Main loop of Go `parseIPv6`: one iteration reads a hex group, then a
trailing IPv4 quad, a colon, or an ellipsis; `acc` is the byte prefix
built so far and `ell` the byte index of the ellipsis, if seen. The fuel
is an upper bound on iterations (each one adds two bytes, so eight
suffice). -/
def parseIPv6Loop : Nat → List Nat → Option Nat → GoStr → Option IPBytes
  | fuel, acc, ell, s =>
    if 16 ≤ acc.length then parseIPv6Finish acc ell s
    else
      match fuel with
      | 0 => none
      | fuel + 1 =>
        match xtoi s with
        | (n, rest, ok) =>
          if !ok || decide (0xFFFF < n) then none
          else
            match rest with
            | c :: rest1 =>
              if c = dotChar then
                if (ell = none ∧ acc.length ≠ 12) ∨ 16 < acc.length + 4 then none
                else
                  match parseIPv4 s with
                  | none => none
                  | some ip4 => parseIPv6Finish (acc ++ ip4.drop 12) ell []
              else
                let acc2 := acc ++ [n / 256, n % 256]
                if c ≠ colonChar ∨ rest1 = [] then none
                else
                  match rest1 with
                  | c2 :: rest2 =>
                    if c2 = colonChar then
                      if ell.isSome then none
                      else if rest2 = [] then parseIPv6Finish acc2 (some acc2.length) []
                      else parseIPv6Loop fuel acc2 (some acc2.length) rest2
                    else parseIPv6Loop fuel acc2 ell rest1
                  | [] => none
            | [] => parseIPv6Finish (acc ++ [n / 256, n % 256]) ell []

/-- Model of Go `parseIPv6` (no zone handling: a zone separator fails the
hex scanner exactly as any other non-hex byte does). -/
def parseIPv6 (s : GoStr) : Option IPBytes :=
  match s with
  | c1 :: c2 :: rest =>
    if c1 = colonChar ∧ c2 = colonChar then
      if rest = [] then some (List.replicate 16 0)
      else parseIPv6Loop 16 [] (some 0) rest
    else parseIPv6Loop 16 [] none s
  | _ => parseIPv6Loop 16 [] none s

def goParseIPAux (full : GoStr) : GoStr → Option IPBytes
  | [] => none
  | c :: cs =>
    if c = dotChar then parseIPv4 full
    else if c = colonChar then parseIPv6 full
    else goParseIPAux full cs

/-- Model of Go `net.ParseIP`: dispatch on the first dot or colon. -/
def goParseIP (s : GoStr) : Option IPBytes := goParseIPAux s s

/-! ## Model of Go address rendering

`net.TCPAddr.String()` is `JoinHostPort(ipEmptyString(IP), itoa(Port))`;
`net.IP.String()` prints dotted decimal for IPv4 and lowercase hex groups
with the first longest (length at least two) zero-group run elided for
IPv6. This produces the process-wide cache key. -/

def decDigitChar (n : Nat) : Char := Char.ofNat (n + '0'.toNat)

def uitoaFuel : Nat → Nat → GoStr
  | 0, _ => []
  | fuel + 1, n =>
    if n < 10 then [decDigitChar n]
    else uitoaFuel fuel (n / 10) ++ [decDigitChar (n % 10)]

def uitoa (n : Nat) : GoStr := uitoaFuel (n + 1) n

def itoa (i : Int) : GoStr :=
  if i < 0 then '-' :: uitoa i.natAbs else uitoa i.natAbs

def hexDigitChar (n : Nat) : Char :=
  if n < 10 then decDigitChar n else Char.ofNat (n - 10 + 'a'.toNat)

def itoxFuel : Nat → Nat → GoStr
  | 0, _ => []
  | fuel + 1, n =>
    if n < 16 then [hexDigitChar n]
    else itoxFuel fuel (n / 16) ++ [hexDigitChar (n % 16)]

def itox (n : Nat) : GoStr := itoxFuel (n + 1) n

/-- Model of Go `IP.To4`: a 4-byte address, or a 16-byte address carrying
the IPv4-in-IPv6 marker bytes. -/
def to4 (ip : IPBytes) : Option (List Nat) :=
  if ip.length = 4 then some ip
  else if ip.length = 16 ∧ ip.take 12 = [0, 0, 0, 0, 0, 0, 0, 0, 0, 0, 0xff, 0xff] then
    some (ip.drop 12)
  else none

def groupsOf : IPBytes → List Nat
  | a :: b :: rest => (a * 256 + b) :: groupsOf rest
  | _ => []

def zeroRunAt : List Nat → Nat
  | [] => 0
  | g :: rest => if g = 0 then zeroRunAt rest + 1 else 0

def bestRunAux : List Nat → Nat → Nat × Nat → Nat × Nat
  | [], _, best => best
  | g :: rest, i, best =>
    let r := zeroRunAt (g :: rest)
    bestRunAux rest (i + 1) (if best.2 < r then (i, r) else best)

/-- First longest run of zero groups, ignored when shorter than two
groups, as in Go `IP.String`. -/
def bestZeroRun (gs : List Nat) : Option (Nat × Nat) :=
  let b := bestRunAux gs 0 (0, 0)
  if 2 ≤ b.2 then some b else none

def joinColon : List GoStr → GoStr
  | [] => []
  | [g] => g
  | g :: gs => g ++ colonChar :: joinColon gs

def v6Render (gs : List Nat) : GoStr :=
  match bestZeroRun gs with
  | none => joinColon (gs.map itox)
  | some (e0, len) =>
    joinColon ((gs.take e0).map itox) ++ colonChar :: colonChar ::
      joinColon ((gs.drop (e0 + len)).map itox)

def ipToString (ip : IPBytes) : GoStr :=
  if ip = [] then "<nil>".data
  else
    match to4 ip with
    | some [a, b, c, d] =>
      uitoa a ++ dotChar :: uitoa b ++ dotChar :: uitoa c ++ dotChar :: uitoa d
    | _ => if ip.length = 16 then v6Render (groupsOf ip) else "?".data

def ipEmptyString (ip : IPBytes) : GoStr :=
  if ip = [] then [] else ipToString ip

/-- Model of `net.TCPAddr` (IP plus a machine-int port). -/
structure TCPAddr where
  ip : IPBytes
  port : Int
deriving DecidableEq, Repr

/-- Model of Go `TCPAddr.String`: `JoinHostPort` brackets a host that
contains a colon. -/
def tcpAddrString (a : TCPAddr) : GoStr :=
  let host := ipEmptyString a.ip
  let port := itoa a.port
  if colonChar ∈ host then "[".data ++ host ++ "]:".data ++ port
  else host ++ colonChar :: port

/-! ## Model of `strings.Split` (single-character separator) and of
`bufio.Reader.ReadString` -/

/-- Model of Go `strings.Split(s, sep)` for a one-character separator:
splitting the empty string yields one empty field, and every separator
occurrence opens a new field. -/
def splitOn (sep : Char) : GoStr → List GoStr
  | [] => [[]]
  | c :: cs =>
    if c = sep then [] :: splitOn sep cs
    else
      match splitOn sep cs with
      | [] => [[c]]
      | f :: fs => (c :: f) :: fs

/-- Model of `bufio.Reader.ReadString('\n')` over the remaining stream:
returns the consumed line (delimiter included when found), the rest of
the stream, and whether the delimiter was found; when it was not, the
whole stream is consumed and Go reports `io.EOF`. -/
def readStringNL : GoStr → GoStr × GoStr × Bool
  | [] => ([], [], false)
  | c :: cs =>
    if c = nlChar then ([c], cs, true)
    else
      match readStringNL cs with
      | (l, r, ok) => (c :: l, r, ok)

/-! ## Model of the `proxyprotocol.Conn` wrapper -/

/-- The byte marker `prefix = []byte("PROXY ")` the decoder looks for. -/
def proxyMarker : GoStr := "PROXY ".data

/-- Outcome of the incremental `Peek` loop at the top of
`Conn.checkPrefix`: an I/O (end-of-stream) error from `Peek`, an early
mismatch exit, or a full six-byte match. -/
inductive ScanResult
  | ioErr
  | mismatch
  | matched
deriving DecidableEq, Repr

/-- The incremental marker check: `Peek(i)` for `i = 1..6`, failing with
the `Peek` error when the stream ends while still matching, and exiting
with a nil error at the first mismatching byte. Modelled byte by byte,
which visits exactly the same outcomes in the same order. -/
def scanMarker : GoStr → GoStr → ScanResult
  | [], _ => .matched
  | _ :: _, [] => .ioErr
  | m :: ms, b :: bs => if b = m then scanMarker ms bs else .mismatch

/-- Go error values surfaced by the decoder. -/
inductive GoError
  | eof
  | closedConn
  | invalidHeader (h : GoStr)
  | unhandledType (t : GoStr)
  | invalidSrcIP (s : GoStr)
  | invalidSrcPort (s : GoStr)
  | invalidDstIP (s : GoStr)
  | invalidDstPort (s : GoStr)
deriving DecidableEq, Repr

/-- Model of `proxyprotocol.Conn`: `buf` is the not-yet-delivered byte
stream held behind the buffered reader (the peer sends no further bytes
after it), `peer` the physical peer address returned by the wrapped
`conn.RemoteAddr()`, `srcAddr` the parsed PROXY source address,
`onceDone` the `sync.Once` guard state, and `closed` whether
`conn.Close()` has run. -/
structure Conn where
  buf : GoStr
  peer : TCPAddr
  srcAddr : Option TCPAddr := none
  onceDone : Bool := false
  closed : Bool := false
deriving DecidableEq, Repr

/-- Model of `proxyprotocol.ProxyProtoInfo`. -/
structure ProxyProtoInfo where
  Protocol : GoStr
  ClientAddr : TCPAddr
  ProxyAddr : TCPAddr
deriving DecidableEq, Repr

abbrev Cache := List (GoStr × ProxyProtoInfo)

/-- Modelled from the spec: `putInfo` (defined outside the excerpted
sources, in the package's cache file) stores an immutable
`ProxyProtoInfo` record in the process-wide registry under the given
key; entries are never evicted. A later `putInfo` for the same key
replaces the visible entry, which lookup resolves front-first. -/
def putInfo (k : GoStr) (v : ProxyProtoInfo) (c : Cache) : Cache := (k, v) :: c

/-- Modelled from the spec: lookup in the process-wide registry. -/
def getInfo (k : GoStr) (c : Cache) : Option ProxyProtoInfo :=
  (c.find? (fun kv => kv.1 = k)).map (fun kv => kv.2)

/-- Model of `Conn.checkPrefix` (named with an `Fn` suffix for the
verification file): the incremental marker peek, the `ReadString('\n')`
line read, the unconditional two-byte strip, the six-field split, the
`TCP4`/`TCP6` switch, source then destination parsing, the `srcAddr`
assignment placed between the two, and the `putInfo` call on success.
Returns the updated connection, the updated cache and the returned
error. -/
def checkPrefixFn (p : Conn) (cache : Cache) : Conn × Cache × Option GoError :=
  match scanMarker proxyMarker p.buf with
  | .ioErr => (p, cache, some .eof)
  | .mismatch => (p, cache, none)
  | .matched =>
    match readStringNL p.buf with
    | (_, rest, false) => ({ p with buf := rest, closed := true }, cache, some .eof)
    | (line, rest, true) =>
      let p1 : Conn := { p with buf := rest }
      let header := line.take (line.length - 2)
      let parts := splitOn spaceChar header
      if parts.length ≠ 6 then
        ({ p1 with closed := true }, cache, some (.invalidHeader header))
      else
        let typ := parts.getD 1 []
        if typ ≠ "TCP4".data ∧ typ ≠ "TCP6".data then
          ({ p1 with closed := true }, cache, some (.unhandledType typ))
        else
          match goParseIP (parts.getD 2 []) with
          | none => ({ p1 with closed := true }, cache, some (.invalidSrcIP (parts.getD 2 [])))
          | some ip =>
            match atoi (parts.getD 4 []) with
            | none => ({ p1 with closed := true }, cache, some (.invalidSrcPort (parts.getD 4 [])))
            | some port =>
              let p2 : Conn := { p1 with srcAddr := some ⟨ip, port⟩ }
              match goParseIP (parts.getD 3 []) with
              | none => ({ p2 with closed := true }, cache, some (.invalidDstIP (parts.getD 3 [])))
              | some ip2 =>
                match atoi (parts.getD 5 []) with
                | none => ({ p2 with closed := true }, cache, some (.invalidDstPort (parts.getD 5 [])))
                | some port2 =>
                  let destAddr : TCPAddr := ⟨ip2, port2⟩
                  let info : ProxyProtoInfo := ⟨typ, ⟨ip, port⟩, destAddr⟩
                  (p2, putInfo (tcpAddrString info.ClientAddr) info cache, none)

/-- Model of a plain `bufReader.Read(b)` with `len(b) = n`: buffered
bytes are delivered even after a close; an empty buffer reports the
end-of-stream (or closed-connection) error. -/
def bufRead (p : Conn) (n : Nat) : Conn × (GoStr ⊕ GoError) :=
  if p.buf = [] then (p, .inr (if p.closed then .closedConn else .eof))
  else ({ p with buf := p.buf.drop n }, .inl (p.buf.take n))

/-- Model of `Conn.Read`: the `sync.Once`-guarded header check runs on
the first call only; an error from that run is returned with no bytes;
otherwise the buffered read proceeds. A later call never sees an error
from an earlier check (the local `err` is nil when `once` is spent). -/
def connRead (p : Conn) (cache : Cache) (n : Nat) : Conn × Cache × (GoStr ⊕ GoError) :=
  if p.onceDone then
    match bufRead p n with
    | (p2, out) => (p2, cache, out)
  else
    match checkPrefixFn p cache with
    | (p1, cache1, some e) => ({ p1 with onceDone := true }, cache1, .inr e)
    | (p1, cache1, none) =>
      match bufRead { p1 with onceDone := true } n with
      | (p2, out) => (p2, cache1, out)

/-- Model of `Conn.RemoteAddr`: the `sync.Once`-guarded header check runs
on the first call only and its error is only logged; the parsed source
address is returned when set, the physical peer address otherwise. -/
def connRemoteAddr (p : Conn) (cache : Cache) : Conn × Cache × TCPAddr :=
  let st : Conn × Cache :=
    if p.onceDone then (p, cache)
    else
      match checkPrefixFn p cache with
      | (p1, cache1, _) => ({ p1 with onceDone := true }, cache1)
  (st.1, st.2, st.1.srcAddr.getD st.1.peer)

/-- One externally observable operation on a wrapped connection. -/
inductive Op
  | read (n : Nat)
  | remoteAddr
deriving DecidableEq, Repr

/-- Apply one operation to a connection-and-cache state. -/
def applyOp (s : Conn × Cache) : Op → Conn × Cache
  | .read n =>
    match connRead s.1 s.2 n with
    | (p, c, _) => (p, c)
  | .remoteAddr =>
    match connRemoteAddr s.1 s.2 with
    | (p, c, _) => (p, c)

/-- Whether an operation on this state runs `checkPrefix`: both
operations consult the same `sync.Once`, so the check runs exactly when
the guard is not yet spent. -/
def opRunsCheck (s : Conn × Cache) (_o : Op) : Bool := !s.1.onceDone

def applyOps (s : Conn × Cache) : List Op → Conn × Cache
  | [] => s
  | o :: os => applyOps (applyOp s o) os

/-- Number of `checkPrefix` executions along a trace of operations. -/
def countChecks (s : Conn × Cache) : List Op → Nat
  | [] => 0
  | o :: os => (if opRunsCheck s o then 1 else 0) + countChecks (applyOp s o) os

/-- A freshly wrapped connection, as built by `NewConn`. -/
def newConn (buf : GoStr) (peer : TCPAddr) : Conn :=
  { buf := buf, peer := peer }

/-! ## Backend test helpers: the echo handler and path routing -/

/-- Modelled from the spec: the message type enumeration of the `common`
package (not under the excerpted sources); the echo handler uses
`common.Body`, and handler shutdown uses the terminal `Close` marker. -/
inductive MessageType
  | body
  | close
  | connect
  | err
  | ping
deriving DecidableEq, Repr

/-- Modelled from the spec: `common.Message`, the framed unit
`{ Key, Type, Body }` (source of the `common` package not under the
excerpted sources). The Go field `Type` is spelled `Typ` here because
`Type` is a Lean keyword. -/
structure Message where
  Key : String
  Typ : MessageType
  Body : String
deriving DecidableEq, Repr

/-- Modelled from the spec: `SignalHandlerClosed` (not under the
excerpted sources) sends the one terminal `Close` message for the
handler's own session key on the response channel. -/
def SignalHandlerClosed (key : String) : Message := ⟨key, .close, ""⟩

/-- Model of `echoHandler.Handle`: the inbound channel is the list of
strings received before the channel closes; the result is the sequence
of messages sent on the response channel, the deferred
`SignalHandlerClosed` firing at return. -/
def echoHandlerHandle (key : String) (_initialMessage : String) :
    List String → List Message
  | [] => [SignalHandlerClosed key]
  | m :: ms =>
    if m ≠ "" then
      ⟨key, .body, m ++ "-response"⟩ :: echoHandlerHandle key _initialMessage ms
    else echoHandlerHandle key _initialMessage ms

/-- A path with one enforced trailing slash, the comparison form of the
routing rule. -/
def ensureTrailingSlash (s : GoStr) : GoStr :=
  if s.getLast? = some '/' then s else s ++ ['/']

/-- `leadsList a b` holds when `a` is a leading segment of `b`. -/
def leadsList : GoStr → GoStr → Bool
  | [], _ => true
  | _ :: _, [] => false
  | a :: as, b :: bs => a = b && leadsList as bs

/-- Modelled from the spec: `getHandler` is not under the excerpted
sources (only its test `TestGetHandler` is); per the routing contract, a
request path matches a registered key when, with one enforced trailing
slash on each side, the key is a leading segment of the path, and the
longest matching key wins. -/
def getHandler (path : GoStr) (handlers : List (GoStr × α)) : Option α :=
  (handlers.foldl
    (fun best kv =>
      if leadsList (ensureTrailingSlash kv.1) (ensureTrailingSlash path) then
        match best with
        | none => some kv
        | some b => if b.1.length < kv.1.length then some kv else some b
      else best)
    none).map (fun kv => kv.2)

/-! ## Statement-level helper definitions -/

/-- A stream that starts with a PROXY header line: the literal tag, five
further space-separated fields, and a trailing segment (for a CRLF line
the trailing segment is `'\r' :: '\n' :: rest`). -/
def mkHeaderBuf (t src dst sp dp tail : GoStr) : GoStr :=
  "PROXY".data ++ spaceChar ::
    (t ++ spaceChar :: (src ++ spaceChar :: (dst ++ spaceChar :: (sp ++ spaceChar :: (dp ++ tail)))))

/-- The stage of `checkPrefixFn` after the header line has been split
into its six fields: the type switch, source parsing, the `srcAddr`
assignment, destination parsing, and the cache insertion, applied to the
connection whose buffer already dropped the header line. -/
def afterFields (t src dst sp dp : GoStr) (p1 : Conn) (cache : Cache) :
    Conn × Cache × Option GoError :=
  if t ≠ "TCP4".data ∧ t ≠ "TCP6".data then
    ({ p1 with closed := true }, cache, some (.unhandledType t))
  else
    match goParseIP src with
    | none => ({ p1 with closed := true }, cache, some (.invalidSrcIP src))
    | some ip =>
      match atoi sp with
      | none => ({ p1 with closed := true }, cache, some (.invalidSrcPort sp))
      | some port =>
        let p2 : Conn := { p1 with srcAddr := some ⟨ip, port⟩ }
        match goParseIP dst with
        | none => ({ p2 with closed := true }, cache, some (.invalidDstIP dst))
        | some ip2 =>
          match atoi dp with
          | none => ({ p2 with closed := true }, cache, some (.invalidDstPort dp))
          | some port2 =>
            (p2, putInfo (tcpAddrString ⟨ip, port⟩) ⟨t, ⟨ip, port⟩, ⟨ip2, port2⟩⟩ cache, none)

/-- A header field that cannot disturb the line framing: it contains
neither the space separator nor a newline. Any field that `net.ParseIP`
or `strconv.Atoi` accepts is clean. -/
def cleanField (f : GoStr) : Prop := spaceChar ∉ f ∧ nlChar ∉ f

/-- The full well-formedness condition the decoder's parse pipeline
imposes on a stream that begins with the marker: the line read finds its
delimiter, the stripped line splits into exactly six fields, the type
token is `TCP4` or `TCP6`, both IPs parse, and both ports are numeric. -/
def headerWellFormedB (buf : GoStr) : Bool :=
  match readStringNL buf with
  | (_, _, false) => false
  | (line, _, true) =>
    let header := line.take (line.length - 2)
    let parts := splitOn spaceChar header
    parts.length == 6 &&
    (parts.getD 1 [] == "TCP4".data || parts.getD 1 [] == "TCP6".data) &&
    (goParseIP (parts.getD 2 [])).isSome && (atoi (parts.getD 4 [])).isSome &&
    (goParseIP (parts.getD 3 [])).isSome && (atoi (parts.getD 5 [])).isSome

/-- Malformation detected before the source address is assigned: a
missing delimiter, a wrong field count, an unknown type token, or an
unparseable source IP or port. -/
def headerEarlyMalformedB (buf : GoStr) : Bool :=
  match readStringNL buf with
  | (_, _, false) => true
  | (line, _, true) =>
    let header := line.take (line.length - 2)
    let parts := splitOn spaceChar header
    !(parts.length == 6) ||
    !(parts.getD 1 [] == "TCP4".data || parts.getD 1 [] == "TCP6".data) ||
    !(goParseIP (parts.getD 2 [])).isSome || !(atoi (parts.getD 4 [])).isSome

/-- The stage of `checkPrefixFn` after the line was read and before the
strip/split: strip two bytes, split, check the field count, then hand
the six fields to `afterFields`. -/
def afterLine (line : GoStr) (p1 : Conn) (cache : Cache) : Conn × Cache × Option GoError :=
  let header := line.take (line.length - 2)
  let parts := splitOn spaceChar header
  if parts.length ≠ 6 then
    ({ p1 with closed := true }, cache, some (.invalidHeader header))
  else
    afterFields (parts.getD 1 []) (parts.getD 2 []) (parts.getD 3 [])
      (parts.getD 4 []) (parts.getD 5 []) p1 cache

/-! ## Helper lemmas: the marker scan -/

theorem scanMarker_append (ms r : GoStr) : scanMarker ms (ms ++ r) = .matched := by
  induction ms with
  | nil => rfl
  | cons m ms ih => simpa [scanMarker] using ih

theorem scanMarker_matched (ms : GoStr) :
    ∀ bs : GoStr, scanMarker ms bs = .matched → bs.take ms.length = ms := by
  induction ms with
  | nil => intro bs _; rfl
  | cons m ms ih =>
    intro bs h
    cases bs with
    | nil => simp [scanMarker] at h
    | cons b bs =>
      by_cases hb : b = m
      · subst hb
        simp only [scanMarker, if_pos rfl] at h
        simpa [List.take] using ih bs h
      · simp [scanMarker, hb] at h

theorem scanMarker_of_take (ms : GoStr) :
    ∀ bs : GoStr, bs.take ms.length = ms → scanMarker ms bs = .matched := by
  induction ms with
  | nil => intro bs _; rfl
  | cons m ms ih =>
    intro bs h
    cases bs with
    | nil => simp at h
    | cons b bs =>
      simp only [List.length_cons, List.take_succ_cons, List.cons.injEq] at h
      simp [scanMarker, h.1, ih bs h.2]

theorem scanMarker_mismatch (ms : GoStr) :
    ∀ bs : GoStr, bs.take ms.length ≠ ms.take bs.length → scanMarker ms bs = .mismatch := by
  induction ms with
  | nil => intro bs h; simp at h
  | cons m ms ih =>
    intro bs h
    cases bs with
    | nil => simp at h
    | cons b bs =>
      by_cases hb : b = m
      · subst hb
        simp only [List.length_cons, List.take_succ_cons, ne_eq, List.cons.injEq,
          true_and] at h
        simp [scanMarker, ih bs h]
      · simp [scanMarker, hb]

/-! ## Helper lemmas: line reading, stripping and splitting -/

theorem readStringNL_append (A : GoStr) (r : GoStr) (h : nlChar ∉ A) :
    readStringNL (A ++ nlChar :: r) = (A ++ [nlChar], r, true) := by
  induction A with
  | nil => simp [readStringNL]
  | cons c cs ih =>
    have hc : c ≠ nlChar := fun hc => h (hc ▸ List.mem_cons_self c cs)
    have hcs : nlChar ∉ cs := fun hm => h (List.mem_cons_of_mem c hm)
    simp [readStringNL, hc, ih hcs]

theorem splitOn_no_sep (sep : Char) (A : GoStr) (h : sep ∉ A) : splitOn sep A = [A] := by
  induction A with
  | nil => rfl
  | cons c cs ih =>
    have hc : c ≠ sep := fun hc => h (hc ▸ List.mem_cons_self c cs)
    have hcs : sep ∉ cs := fun hm => h (List.mem_cons_of_mem c hm)
    simp [splitOn, hc, ih hcs]

theorem splitOn_sep_append (sep : Char) (A B : GoStr) (h : sep ∉ A) :
    splitOn sep (A ++ sep :: B) = A :: splitOn sep B := by
  induction A with
  | nil => simp [splitOn]
  | cons c cs ih =>
    have hc : c ≠ sep := fun hc => h (hc ▸ List.mem_cons_self c cs)
    have hcs : sep ∉ cs := fun hm => h (List.mem_cons_of_mem c hm)
    simp [splitOn, hc, ih hcs]

theorem take_strip_two (B : GoStr) (x y : Char) :
    (B ++ [x, y]).take ((B ++ [x, y]).length - 2) = B := by
  have hlen : (B ++ [x, y]).length - 2 = B.length := by simp
  rw [hlen, List.take_left]

theorem proxyTag_data : ("PROXY".data : GoStr) = ['P', 'R', 'O', 'X', 'Y'] := rfl

theorem proxyMarker_eq : proxyMarker = ['P', 'R', 'O', 'X', 'Y', spaceChar] := rfl

/-- Reduction of `checkPrefixFn` on a stream that carries a full
six-field header line: the marker matches, the line up to the first
newline is consumed, the last two bytes of the line (whatever the
penultimate byte `x` is) are stripped, and the six fields reach the
parsing stage. -/
theorem checkPrefixFn_header (t src dst sp dp rest : GoStr) (x : Char)
    (peer : TCPAddr) (cache : Cache)
    (ht : cleanField t) (hsrc : cleanField src) (hdst : cleanField dst)
    (hsp : cleanField sp) (hdp : cleanField dp) (hx : x ≠ nlChar) :
    checkPrefixFn (newConn (mkHeaderBuf t src dst sp dp (x :: nlChar :: rest)) peer) cache
      = afterFields t src dst sp dp { buf := rest, peer := peer } cache := by
  set A := "PROXY".data ++ spaceChar ::
    (t ++ spaceChar :: (src ++ spaceChar :: (dst ++ spaceChar :: (sp ++ spaceChar :: dp))))
    with hA
  have hbuf : mkHeaderBuf t src dst sp dp (x :: nlChar :: rest) = (A ++ [x]) ++ nlChar :: rest := by
    simp [mkHeaderBuf, hA, List.append_assoc]
  have hscan : scanMarker proxyMarker (mkHeaderBuf t src dst sp dp (x :: nlChar :: rest))
      = .matched := by
    rw [hbuf, hA]
    simp only [proxyMarker_eq, proxyTag_data, List.cons_append, List.nil_append,
      List.append_assoc]
    simp [scanMarker]
  have hnA : nlChar ∉ A ++ [x] := by
    intro hmem
    have hcases : nlChar = 'P' ∨ nlChar = 'R' ∨ nlChar = 'O' ∨ nlChar = 'X' ∨ nlChar = 'Y' ∨
        nlChar = spaceChar ∨ nlChar ∈ t ∨ nlChar = spaceChar ∨ nlChar ∈ src ∨
        nlChar = spaceChar ∨ nlChar ∈ dst ∨ nlChar = spaceChar ∨ nlChar ∈ sp ∨
        nlChar = spaceChar ∨ nlChar ∈ dp ∨ nlChar = x := by
      simpa [hA, proxyTag_data, or_assoc] using hmem
    rcases hcases with h | h | h | h | h | h | h | h | h | h | h | h | h | h | h | h
    all_goals first
      | exact absurd h (by decide)
      | exact ht.2 h
      | exact hsrc.2 h
      | exact hdst.2 h
      | exact hsp.2 h
      | exact hdp.2 h
      | exact hx h.symm
  have hread : readStringNL (mkHeaderBuf t src dst sp dp (x :: nlChar :: rest))
      = ((A ++ [x]) ++ [nlChar], rest, true) := by
    rw [hbuf, readStringNL_append _ _ hnA]
  have hstrip : ((A ++ [x]) ++ [nlChar]).take (((A ++ [x]) ++ [nlChar]).length - 2) = A := by
    have : (A ++ [x]) ++ [nlChar] = A ++ [x, nlChar] := by simp
    rw [this]
    exact take_strip_two A x nlChar
  have hsplit : splitOn spaceChar A = ["PROXY".data, t, src, dst, sp, dp] := by
    rw [hA, splitOn_sep_append _ _ _ (by decide), splitOn_sep_append _ _ _ ht.1,
      splitOn_sep_append _ _ _ hsrc.1, splitOn_sep_append _ _ _ hdst.1,
      splitOn_sep_append _ _ _ hsp.1, splitOn_no_sep _ _ hdp.1]
  simp only [checkPrefixFn, newConn, hscan, hread, hstrip, hsplit, afterFields]
  simp [List.getD]

/-- On full success of every parse stage, `afterFields` assigns the
source address and stores the record. -/
theorem afterFields_success (t src dst sp dp : GoStr) (q : Conn) (cache : Cache)
    (i1 i2 : IPBytes) (pt1 pt2 : Int)
    (ht : t = "TCP4".data ∨ t = "TCP6".data)
    (h1 : goParseIP src = some i1) (h2 : atoi sp = some pt1)
    (h3 : goParseIP dst = some i2) (h4 : atoi dp = some pt2) :
    afterFields t src dst sp dp q cache
      = ({ q with srcAddr := some ⟨i1, pt1⟩ },
         putInfo (tcpAddrString ⟨i1, pt1⟩) ⟨t, ⟨i1, pt1⟩, ⟨i2, pt2⟩⟩ cache, none) := by
  rcases ht with ht | ht <;> subst ht <;> simp [afterFields, h1, h2, h3, h4]

/-- When the source fields parse but a destination field does not,
`afterFields` keeps the assigned source address, closes the connection
and returns an error. -/
theorem afterFields_dstFail (t src dst sp dp : GoStr) (q : Conn) (cache : Cache)
    (i1 : IPBytes) (pt1 : Int)
    (ht : t = "TCP4".data ∨ t = "TCP6".data)
    (h1 : goParseIP src = some i1) (h2 : atoi sp = some pt1)
    (hbad : goParseIP dst = none ∨ atoi dp = none) :
    ∃ e : GoError, afterFields t src dst sp dp q cache
      = ({ q with srcAddr := some ⟨i1, pt1⟩, closed := true }, cache, some e) := by
  rcases hbad with hbad | hbad
  · refine ⟨.invalidDstIP dst, ?_⟩
    rcases ht with ht | ht <;> subst ht <;> simp [afterFields, h1, h2, hbad]
  · rcases hip2 : goParseIP dst with _ | ip2
    · refine ⟨.invalidDstIP dst, ?_⟩
      rcases ht with ht | ht <;> subst ht <;> simp [afterFields, h1, h2, hip2]
    · refine ⟨.invalidDstPort dp, ?_⟩
      rcases ht with ht | ht <;> subst ht <;> simp [afterFields, h1, h2, hip2, hbad]

/-- `checkPrefix` never changes the physical peer address. -/
theorem checkPrefixFn_peer (p : Conn) (cache : Cache) :
    ((checkPrefixFn p cache).1).peer = p.peer := by
  unfold checkPrefixFn
  dsimp only
  repeat' split
  all_goals rfl

/-- `checkPrefix` never changes the `sync.Once` guard. -/
theorem checkPrefixFn_once (p : Conn) (cache : Cache) :
    ((checkPrefixFn p cache).1).onceDone = p.onceDone := by
  unfold checkPrefixFn
  dsimp only
  repeat' split
  all_goals rfl

/-- A stream whose first six bytes are not the marker never reaches the
header-line stage: the connection and the cache are left untouched. -/
theorem checkPrefixFn_nomatch (p : Conn) (cache : Cache)
    (h : p.buf.take 6 ≠ proxyMarker) :
    (checkPrefixFn p cache).1 = p ∧ (checkPrefixFn p cache).2.1 = cache := by
  have hs : scanMarker proxyMarker p.buf ≠ .matched := by
    intro hm
    exact h (scanMarker_matched proxyMarker p.buf hm)
  unfold checkPrefixFn
  rcases hsc : scanMarker proxyMarker p.buf with _ | _ | _
  · exact ⟨rfl, rfl⟩
  · exact ⟨rfl, rfl⟩
  · exact absurd hsc hs

/-- A stream whose available initial bytes already mismatch the marker
makes the check a no-op with a nil error. -/
theorem checkPrefixFn_mismatch (p : Conn) (cache : Cache)
    (h : p.buf.take 6 ≠ proxyMarker.take p.buf.length) :
    checkPrefixFn p cache = (p, cache, none) := by
  have hs : scanMarker proxyMarker p.buf = .mismatch :=
    scanMarker_mismatch proxyMarker p.buf h
  unfold checkPrefixFn
  rw [hs]

/-- A list of length six is a literal six-element list. -/
theorem exists_six_of_length {α : Type} (l : List α) (h : l.length = 6) :
    ∃ a0 a1 a2 a3 a4 a5 : α, l = [a0, a1, a2, a3, a4, a5] := by
  rcases l with _ | ⟨a0, _ | ⟨a1, _ | ⟨a2, _ | ⟨a3, _ | ⟨a4, _ | ⟨a5, _ | ⟨a6, l⟩⟩⟩⟩⟩⟩⟩ <;>
    simp at h
  exact ⟨a0, a1, a2, a3, a4, a5, rfl⟩

/-- When the marker matched and the line read found its delimiter,
`checkPrefix` is the line stage applied to the connection whose buffer
dropped the line. -/
theorem checkPrefixFn_matched (p : Conn) (cache : Cache) (line rest : GoStr)
    (hscan : scanMarker proxyMarker p.buf = .matched)
    (hr : readStringNL p.buf = (line, rest, true)) :
    checkPrefixFn p cache = afterLine line { p with buf := rest } cache := by
  unfold checkPrefixFn afterLine afterFields
  rw [hscan, hr]

/-- When the marker matched but no newline arrives before the stream
ends, `checkPrefix` closes the connection and returns the read error. -/
theorem checkPrefixFn_noDelim (p : Conn) (cache : Cache) (line rest : GoStr)
    (hscan : scanMarker proxyMarker p.buf = .matched)
    (hr : readStringNL p.buf = (line, rest, false)) :
    checkPrefixFn p cache = ({ p with buf := rest, closed := true }, cache, some .eof) := by
  unfold checkPrefixFn
  rw [hscan, hr]

/-- A read performed on a fresh connection surfaces the error of the
header check it triggered. -/
theorem connRead_surfaces (p : Conn) (cache : Cache) (n : Nat) (e : GoError)
    (hp : p.onceDone = false) (h : (checkPrefixFn p cache).2.2 = some e) :
    (connRead p cache n).2.2 = Sum.inr e := by
  rcases hq : checkPrefixFn p cache with ⟨q, c, e'⟩
  rw [hq] at h
  simp only [Option.some.injEq] at h
  subst h
  simp [connRead, hp, hq]

/-! ## Helper lemmas: the once-guard across operation traces -/

/-- The state components a first operation on a fresh connection leaves
behind: exactly those `checkPrefix` computed, with the once-guard spent. -/
theorem applyOp_fresh (p : Conn) (cache : Cache) (o : Op) (hp : p.onceDone = false) :
    (applyOp (p, cache) o).1.srcAddr = (checkPrefixFn p cache).1.srcAddr ∧
    (applyOp (p, cache) o).1.peer = (checkPrefixFn p cache).1.peer ∧
    (applyOp (p, cache) o).1.onceDone = true ∧
    (applyOp (p, cache) o).2 = (checkPrefixFn p cache).2.1 := by
  cases o with
  | read n =>
    rcases h : checkPrefixFn p cache with ⟨q, c, e⟩
    cases e with
    | none =>
      simp only [applyOp, connRead, hp, Bool.false_eq_true, if_false, h, bufRead]
      split <;> simp
    | some e => simp [applyOp, connRead, hp, h]
  | remoteAddr =>
    rcases h : checkPrefixFn p cache with ⟨q, c, e⟩
    simp [applyOp, connRemoteAddr, hp, h]

/-- Once the guard is spent, an operation changes neither the parsed
source address, the peer, the guard, nor the cache. -/
theorem applyOp_checked (s : Conn × Cache) (o : Op) (h : s.1.onceDone = true) :
    (applyOp s o).1.srcAddr = s.1.srcAddr ∧
    (applyOp s o).1.peer = s.1.peer ∧
    (applyOp s o).1.onceDone = true ∧
    (applyOp s o).2 = s.2 := by
  cases o with
  | read n =>
    simp only [applyOp, connRead, h, if_true, bufRead]
    split <;> simp [h]
  | remoteAddr => simp [applyOp, connRemoteAddr, h]

/-- Trace version of `applyOp_checked`. -/
theorem applyOps_checked (ops : List Op) :
    ∀ s : Conn × Cache, s.1.onceDone = true →
    (applyOps s ops).1.srcAddr = s.1.srcAddr ∧
    (applyOps s ops).1.peer = s.1.peer ∧
    (applyOps s ops).1.onceDone = true ∧
    (applyOps s ops).2 = s.2 := by
  induction ops with
  | nil => exact fun s h => ⟨rfl, rfl, h, rfl⟩
  | cons o os ih =>
    intro s h
    have h1 := applyOp_checked s o h
    have h2 := ih (applyOp s o) h1.2.2.1
    exact ⟨h2.1.trans h1.1, h2.2.1.trans h1.2.1, h2.2.2.1, h2.2.2.2.trans h1.2.2.2⟩

/-- Once the guard is spent, no operation of a trace runs the check. -/
theorem countChecks_checked (ops : List Op) :
    ∀ s : Conn × Cache, s.1.onceDone = true → countChecks s ops = 0 := by
  induction ops with
  | nil => intro s _; rfl
  | cons o os ih =>
    intro s h
    have h1 := applyOp_checked s o h
    simp [countChecks, opRunsCheck, h, ih (applyOp s o) h1.2.2.1]

/-- What `RemoteAddr` reports after any trace of earlier operations on a
fresh connection: the source address the one-time check computed, or the
physical peer when none was parsed. -/
theorem remoteAddr_after_ops (p : Conn) (cache : Cache) (ops : List Op)
    (hp : p.onceDone = false) :
    (connRemoteAddr (applyOps (p, cache) ops).1 (applyOps (p, cache) ops).2).2.2
      = ((checkPrefixFn p cache).1.srcAddr).getD p.peer := by
  cases ops with
  | nil =>
    rcases h : checkPrefixFn p cache with ⟨q, c, e⟩
    have hq : q.peer = p.peer := by
      have := checkPrefixFn_peer p cache
      rw [h] at this
      exact this
    simp [applyOps, connRemoteAddr, hp, h, hq]
  | cons o os =>
    have h1 := applyOp_fresh p cache o hp
    have h2 := applyOps_checked os (applyOp (p, cache) o) h1.2.2.1
    have hpe : (checkPrefixFn p cache).1.peer = p.peer := checkPrefixFn_peer p cache
    simp only [applyOps]
    rw [connRemoteAddr]
    simp only [h2.2.2.1, if_true]
    rw [h2.1, h2.2.1, h1.1, h1.2.1, hpe]

/-! ## Claim theorems -/

/-- C1: a connection whose stream begins with a well-formed
`PROXY TCP4 <src> <dst> <sport> <dport>\r\n` header (six space-separated
fields, IPs accepted by `net.ParseIP`, numeric ports) reports the parsed
source address `<src>:<sport>` from `RemoteAddr`, on the first call and
on every later call after any interleaving of reads and address lookups;
a connection whose leading bytes do not begin with `PROXY ` reports the
physical peer address unchanged, likewise stably. -/
theorem remoteAddr_reports_proxy_source :
    (∀ (src dst sp dp rest : GoStr) (i1 i2 : IPBytes) (pt1 pt2 : Int)
        (peer : TCPAddr) (cache : Cache) (ops : List Op),
      cleanField src → cleanField dst → cleanField sp → cleanField dp →
      goParseIP src = some i1 → atoi sp = some pt1 →
      goParseIP dst = some i2 → atoi dp = some pt2 →
      (connRemoteAddr
          (applyOps (newConn
            (mkHeaderBuf "TCP4".data src dst sp dp (crChar :: nlChar :: rest)) peer,
            cache) ops).1
          (applyOps (newConn
            (mkHeaderBuf "TCP4".data src dst sp dp (crChar :: nlChar :: rest)) peer,
            cache) ops).2).2.2 = ⟨i1, pt1⟩) ∧
    (∀ (buf : GoStr) (peer : TCPAddr) (cache : Cache) (ops : List Op),
      buf.take 6 ≠ proxyMarker →
      (connRemoteAddr (applyOps (newConn buf peer, cache) ops).1
          (applyOps (newConn buf peer, cache) ops).2).2.2 = peer) := by
  constructor
  · intro src dst sp dp rest i1 i2 pt1 pt2 peer cache ops hsrc hdst hsp hdp h1 h2 h3 h4
    rw [remoteAddr_after_ops _ _ _ rfl]
    rw [checkPrefixFn_header "TCP4".data src dst sp dp rest crChar peer cache
      (by constructor <;> decide) hsrc hdst hsp hdp (by decide)]
    rw [afterFields_success "TCP4".data src dst sp dp _ cache i1 i2 pt1 pt2
      (Or.inl rfl) h1 h2 h3 h4]
    rfl
  · intro buf peer cache ops h
    rw [remoteAddr_after_ops _ _ _ rfl]
    have hn := checkPrefixFn_nomatch (newConn buf peer) cache h
    rw [hn.1]
    rfl

/-- C1 witness: a concrete proxied stream reports `1.2.3.4:8080` after a
read and a lookup, and a concrete unproxied stream reports the peer. -/
theorem remoteAddr_reports_proxy_source_witness :
    (connRemoteAddr
        (applyOps (newConn
          (mkHeaderBuf "TCP4".data "1.2.3.4".data "5.6.7.8".data "8080".data "9090".data
            (crChar :: nlChar :: "AB".data)) ⟨[9], 7⟩, []) [.read 1, .remoteAddr]).1
        (applyOps (newConn
          (mkHeaderBuf "TCP4".data "1.2.3.4".data "5.6.7.8".data "8080".data "9090".data
            (crChar :: nlChar :: "AB".data)) ⟨[9], 7⟩, []) [.read 1, .remoteAddr]).2).2.2
      = ⟨[0, 0, 0, 0, 0, 0, 0, 0, 0, 0, 255, 255, 1, 2, 3, 4], 8080⟩ ∧
    (connRemoteAddr (applyOps (newConn "HELLO WORLD".data ⟨[9], 7⟩, []) [.read 3]).1
        (applyOps (newConn "HELLO WORLD".data ⟨[9], 7⟩, []) [.read 3]).2).2.2 = ⟨[9], 7⟩ := by
  constructor
  · exact remoteAddr_reports_proxy_source.1 "1.2.3.4".data "5.6.7.8".data "8080".data
      "9090".data "AB".data [0, 0, 0, 0, 0, 0, 0, 0, 0, 0, 255, 255, 1, 2, 3, 4]
      [0, 0, 0, 0, 0, 0, 0, 0, 0, 0, 255, 255, 5, 6, 7, 8] 8080 9090
      ⟨[9], 7⟩ [] [.read 1, .remoteAddr]
      (by constructor <;> decide) (by constructor <;> decide)
      (by constructor <;> decide) (by constructor <;> decide)
      (by decide) (by decide) (by decide) (by decide)
  · exact remoteAddr_reports_proxy_source.2 "HELLO WORLD".data ⟨[9], 7⟩ [] [.read 3]
      (by decide)

/-- C2: a connection that begins with `PROXY ` but whose header line is
malformed — no newline arrives (an I/O failure while reading the line),
the stripped line does not split into exactly six fields, the type token
is neither `TCP4` nor `TCP6`, an IP does not parse, or a port is not
numeric — has its underlying connection closed by the one-time check,
which returns a non-nil error that `Read` surfaces to the caller; the
cache is untouched. -/
theorem malformed_header_closes_and_errors
    (buf : GoStr) (peer : TCPAddr) (cache : Cache) (n : Nat)
    (hpre : buf.take 6 = proxyMarker)
    (hwf : headerWellFormedB buf = false) :
    ∃ e : GoError,
      (checkPrefixFn (newConn buf peer) cache).2.2 = some e ∧
      ((checkPrefixFn (newConn buf peer) cache).1).closed = true ∧
      (checkPrefixFn (newConn buf peer) cache).2.1 = cache ∧
      (connRead (newConn buf peer) cache n).2.2 = Sum.inr e := by
  have hscan : scanMarker proxyMarker buf = .matched :=
    scanMarker_of_take proxyMarker buf hpre
  rcases hr : readStringNL buf with ⟨line, rest, ok⟩
  cases ok with
  | false =>
    have hck := checkPrefixFn_noDelim (newConn buf peer) cache line rest hscan hr
    refine ⟨.eof, ?_, ?_, ?_, connRead_surfaces _ _ _ _ rfl ?_⟩ <;> rw [hck]
  | true =>
    have hck := checkPrefixFn_matched (newConn buf peer) cache line rest hscan hr
    unfold headerWellFormedB at hwf
    rw [hr] at hwf
    dsimp only at hwf
    rw [Bool.eq_false_iff] at hwf
    suffices h : ∃ e : GoError,
        (afterLine line { newConn buf peer with buf := rest } cache).2.2 = some e ∧
        ((afterLine line { newConn buf peer with buf := rest } cache).1).closed = true ∧
        (afterLine line { newConn buf peer with buf := rest } cache).2.1 = cache by
      obtain ⟨e, h1, h2, h3⟩ := h
      refine ⟨e, ?_, ?_, ?_, connRead_surfaces _ _ _ _ rfl ?_⟩ <;> rw [hck]
      · exact h1
      · exact h2
      · exact h3
      · exact h1
    by_cases h6 : (splitOn spaceChar (line.take (line.length - 2))).length = 6
    · obtain ⟨a0, a1, a2, a3, a4, a5, hsplit⟩ := exists_six_of_length _ h6
      rw [hsplit] at hwf
      simp only [afterLine, hsplit]
      simp only [List.length_cons, List.length_nil, List.getD, List.getElem?_cons_succ,
        List.getElem?_cons_zero, Option.getD_some, ne_eq, afterFields]
      simp only [List.length_cons, List.length_nil, List.getD, List.getElem?_cons_succ,
        List.getElem?_cons_zero, Option.getD_some, Bool.and_eq_true, Bool.or_eq_true,
        beq_iff_eq, ne_eq] at hwf
      by_cases hty : a1 = "TCP4".data ∨ a1 = "TCP6".data
      · have htyn : ¬(¬a1 = "TCP4".data ∧ ¬a1 = "TCP6".data) := by
          rcases hty with h | h
          · exact fun hc => hc.1 h
          · exact fun hc => hc.2 h
        rcases hip : goParseIP a2 with _ | i1
        · exact ⟨.invalidSrcIP a2, by simp [htyn, hip], by simp [htyn, hip],
            by simp [htyn, hip]⟩
        · rcases hsp : atoi a4 with _ | pt1
          · exact ⟨.invalidSrcPort a4, by simp [htyn, hip, hsp], by simp [htyn, hip, hsp],
              by simp [htyn, hip, hsp]⟩
          · rcases hip2 : goParseIP a3 with _ | i2
            · exact ⟨.invalidDstIP a3, by simp [htyn, hip, hsp, hip2],
                by simp [htyn, hip, hsp, hip2], by simp [htyn, hip, hsp, hip2]⟩
            · rcases hdp : atoi a5 with _ | pt2
              · exact ⟨.invalidDstPort a5, by simp [htyn, hip, hsp, hip2, hdp],
                  by simp [htyn, hip, hsp, hip2, hdp], by simp [htyn, hip, hsp, hip2, hdp]⟩
              · exact absurd (by simp [hip, hsp, hip2, hdp]; tauto) hwf
      · have htyn : ¬a1 = "TCP4".data ∧ ¬a1 = "TCP6".data := not_or.mp hty
        exact ⟨.unhandledType a1, by simp [htyn], by simp [htyn], by simp [htyn]⟩
    · refine ⟨.invalidHeader (line.take (line.length - 2)), ?_, ?_, ?_⟩ <;>
        simp [afterLine, h6]

/-- C2 witness: the concrete five-field header
`PROXY TCP4 1.2.3.4 5.6.7.8 80\r\n` is rejected: the check closes the
connection and returns an error, which a first `Read` surfaces. -/
theorem malformed_header_closes_and_errors_witness :
    ∃ e : GoError,
      (checkPrefixFn (newConn "PROXY TCP4 1.2.3.4 5.6.7.8 80\r\nX".data ⟨[9], 7⟩) []).2.2
        = some e ∧
      ((checkPrefixFn (newConn "PROXY TCP4 1.2.3.4 5.6.7.8 80\r\nX".data ⟨[9], 7⟩) []).1).closed
        = true ∧
      (checkPrefixFn (newConn "PROXY TCP4 1.2.3.4 5.6.7.8 80\r\nX".data ⟨[9], 7⟩) []).2.1
        = ([] : Cache) ∧
      (connRead (newConn "PROXY TCP4 1.2.3.4 5.6.7.8 80\r\nX".data ⟨[9], 7⟩) [] 4).2.2
        = Sum.inr e :=
  malformed_header_closes_and_errors "PROXY TCP4 1.2.3.4 5.6.7.8 80\r\nX".data ⟨[9], 7⟩ [] 4
    (by decide) (by decide)

/-- C3 counterexample: on the malformed five-field header
`PROXY TCP4 1.2.3.4 5.6.7.8 80\r\n` the check does close the connection
with an error, yet a `RemoteAddr` call still returns an address — the
physical peer address — contradicting the claim that no address is
returned. -/
theorem malformed_remote_addr_still_returns_counterexample :
    (checkPrefixFn (newConn "PROXY TCP4 1.2.3.4 5.6.7.8 80\r\nX".data ⟨[9], 7⟩) []).2.2.isSome
      = true ∧
    ((checkPrefixFn (newConn "PROXY TCP4 1.2.3.4 5.6.7.8 80\r\nX".data ⟨[9], 7⟩) []).1).closed
      = true ∧
    (connRemoteAddr (newConn "PROXY TCP4 1.2.3.4 5.6.7.8 80\r\nX".data ⟨[9], 7⟩) []).2.2
      = ⟨[9], 7⟩ := by
  refine ⟨?_, ?_, ?_⟩ <;> decide

/-- C3 (amended): a connection beginning with `PROXY ` whose header is
malformed in a way detected before the source address is parsed (missing
delimiter, wrong field count, unknown type token, unparseable source IP
or port) is closed with a protocol error, no parsed source address is
stored, and `RemoteAddr` — now and after any further operations — falls
back to the physical peer address instead of a header-derived one. -/
theorem early_malformed_remote_addr_is_peer
    (buf : GoStr) (peer : TCPAddr) (cache : Cache) (ops : List Op)
    (hpre : buf.take 6 = proxyMarker)
    (hem : headerEarlyMalformedB buf = true) :
    ∃ e : GoError,
      (checkPrefixFn (newConn buf peer) cache).2.2 = some e ∧
      ((checkPrefixFn (newConn buf peer) cache).1).closed = true ∧
      ((checkPrefixFn (newConn buf peer) cache).1).srcAddr = none ∧
      (connRemoteAddr (applyOps (newConn buf peer, cache) ops).1
          (applyOps (newConn buf peer, cache) ops).2).2.2 = peer := by
  have hscan : scanMarker proxyMarker buf = .matched :=
    scanMarker_of_take proxyMarker buf hpre
  have hrem : (connRemoteAddr (applyOps (newConn buf peer, cache) ops).1
      (applyOps (newConn buf peer, cache) ops).2).2.2
      = ((checkPrefixFn (newConn buf peer) cache).1.srcAddr).getD peer :=
    remoteAddr_after_ops (newConn buf peer) cache ops rfl
  suffices h : ∃ e : GoError,
      (checkPrefixFn (newConn buf peer) cache).2.2 = some e ∧
      ((checkPrefixFn (newConn buf peer) cache).1).closed = true ∧
      ((checkPrefixFn (newConn buf peer) cache).1).srcAddr = none by
    obtain ⟨e, h1, h2, h3⟩ := h
    exact ⟨e, h1, h2, h3, by rw [hrem, h3]; rfl⟩
  rcases hr : readStringNL buf with ⟨line, rest, ok⟩
  cases ok with
  | false =>
    have hck := checkPrefixFn_noDelim (newConn buf peer) cache line rest hscan hr
    exact ⟨.eof, by rw [hck], by rw [hck], by rw [hck]; rfl⟩
  | true =>
    have hck := checkPrefixFn_matched (newConn buf peer) cache line rest hscan hr
    unfold headerEarlyMalformedB at hem
    rw [hr] at hem
    dsimp only at hem
    rw [hck]
    by_cases h6 : (splitOn spaceChar (line.take (line.length - 2))).length = 6
    · obtain ⟨a0, a1, a2, a3, a4, a5, hsplit⟩ := exists_six_of_length _ h6
      rw [hsplit] at hem
      simp only [afterLine, hsplit]
      simp only [List.length_cons, List.length_nil, List.getD, List.getElem?_cons_succ,
        List.getElem?_cons_zero, Option.getD_some, ne_eq, afterFields]
      by_cases hty : a1 = "TCP4".data ∨ a1 = "TCP6".data
      · have htyn : ¬(¬a1 = "TCP4".data ∧ ¬a1 = "TCP6".data) := by
          rcases hty with h | h
          · exact fun hc => hc.1 h
          · exact fun hc => hc.2 h
        rcases hip : goParseIP a2 with _ | i1
        · exact ⟨.invalidSrcIP a2, by simp [htyn, hip, newConn],
            by simp [htyn, hip, newConn], by simp [htyn, hip, newConn]⟩
        · rcases hsp : atoi a4 with _ | pt1
          · exact ⟨.invalidSrcPort a4, by simp [htyn, hip, hsp, newConn],
              by simp [htyn, hip, hsp, newConn], by simp [htyn, hip, hsp, newConn]⟩
          · exfalso
            rcases hty with h | h <;> subst h <;> simp [hip, hsp] at hem
      · have htyn : ¬a1 = "TCP4".data ∧ ¬a1 = "TCP6".data := not_or.mp hty
        exact ⟨.unhandledType a1, by simp [htyn, newConn], by simp [htyn, newConn],
          by simp [htyn, newConn]⟩
    · refine ⟨.invalidHeader (line.take (line.length - 2)), ?_, ?_, ?_⟩ <;>
        simp [afterLine, h6, newConn]

/-- C3 (amended) witness: the five-field header closes with an error and
`RemoteAddr` reports the peer `[9]:7`. -/
theorem early_malformed_remote_addr_is_peer_witness :
    ∃ e : GoError,
      (checkPrefixFn (newConn "PROXY TCP4 10.0.0.1 10.0.0.2 80\r\nY".data ⟨[9], 7⟩) []).2.2
        = some e ∧
      ((checkPrefixFn (newConn "PROXY TCP4 10.0.0.1 10.0.0.2 80\r\nY".data ⟨[9], 7⟩) []).1).closed
        = true ∧
      ((checkPrefixFn
          (newConn "PROXY TCP4 10.0.0.1 10.0.0.2 80\r\nY".data ⟨[9], 7⟩) []).1).srcAddr
        = none ∧
      (connRemoteAddr
          (applyOps (newConn "PROXY TCP4 10.0.0.1 10.0.0.2 80\r\nY".data ⟨[9], 7⟩, [])
            [.remoteAddr]).1
          (applyOps (newConn "PROXY TCP4 10.0.0.1 10.0.0.2 80\r\nY".data ⟨[9], 7⟩, [])
            [.remoteAddr]).2).2.2 = ⟨[9], 7⟩ :=
  early_malformed_remote_addr_is_peer "PROXY TCP4 10.0.0.1 10.0.0.2 80\r\nY".data ⟨[9], 7⟩ []
    [.remoteAddr] (by decide) (by decide)

/-- C4 counterexample: a second `Read` consumes further payload bytes,
so the connection state after two calls differs from the state after the
first call — the claim's "state after n ≥ 1 calls equals the state after
the first call" fails for the bytes remaining to deliver. -/
theorem state_equal_after_first_call_counterexample :
    applyOps (newConn "ab".data ⟨[9], 7⟩, []) [.read 1, .read 1]
      ≠ applyOps (newConn "ab".data ⟨[9], 7⟩, []) [.read 1] := by decide

/-- C4 (amended): the header check executes at most once per connection
over any interleaving and count of `Read` and `RemoteAddr` calls: at
most one operation of any trace from a fresh connection runs the check;
after the first call the once-guard is spent and stays spent, the parsed
source address never changes again, and no later operation runs the
check (later `Read`s only consume payload bytes). -/
theorem check_runs_at_most_once
    (buf : GoStr) (peer : TCPAddr) (cache : Cache) (ops : List Op) (o : Op) :
    countChecks (newConn buf peer, cache) ops ≤ 1 ∧
    (applyOps (applyOp (newConn buf peer, cache) o) ops).1.srcAddr
      = (applyOp (newConn buf peer, cache) o).1.srcAddr ∧
    (applyOps (applyOp (newConn buf peer, cache) o) ops).1.onceDone = true ∧
    countChecks (applyOp (newConn buf peer, cache) o) ops = 0 := by
  have hfresh := applyOp_fresh (newConn buf peer) cache o rfl
  have hstab := applyOps_checked ops (applyOp (newConn buf peer, cache) o) hfresh.2.2.1
  refine ⟨?_, hstab.1, hstab.2.2.1, countChecks_checked ops _ hfresh.2.2.1⟩
  cases ops with
  | nil => simp [countChecks]
  | cons o1 os =>
    have h1 := applyOp_fresh (newConn buf peer) cache o1 rfl
    have h0 : countChecks (applyOp (newConn buf peer, cache) o1) os = 0 :=
      countChecks_checked os _ h1.2.2.1
    have hrun : opRunsCheck (newConn buf peer, cache) o1 = true := rfl
    simp [countChecks, hrun, h0]

/-- C5 counterexample: the three-byte stream `PRO` (a strict leading
segment of the marker, then end of stream) does not match `PROXY `, yet
the first `Read` returns the end-of-stream error raised by the header
peek and delivers nothing, although a plain buffered read would deliver
the three payload bytes. -/
theorem short_markerlike_stream_read_counterexample :
    (connRead (newConn "PRO".data ⟨[9], 7⟩) [] 3).2.2 = Sum.inr .eof ∧
    (bufRead (newConn "PRO".data ⟨[9], 7⟩) 3).2 = Sum.inl "PRO".data := by
  refine ⟨?_, ?_⟩ <;> decide

/-- C5 (amended): when the available initial bytes already mismatch the
marker (the first `min(6, length)` bytes are not a leading segment of
`PROXY `), the check makes no changes and reports no error, and `Read`
delivers the payload unchanged from the very first byte; when instead
the stream ends while still matching a strict leading segment of the
marker, the first `Read` returns the peek's end-of-stream error while
consuming nothing (the counterexample), and the payload stays available. -/
theorem no_marker_read_transparent
    (buf : GoStr) (peer : TCPAddr) (cache : Cache) (n : Nat)
    (h : buf.take 6 ≠ proxyMarker.take buf.length) :
    checkPrefixFn (newConn buf peer) cache = (newConn buf peer, cache, none) ∧
    (connRead (newConn buf peer) cache n).2.2 = Sum.inl (buf.take n) ∧
    (connRead (newConn buf peer) cache n).1.buf = buf.drop n ∧
    (connRead (newConn buf peer) cache n).2.1 = cache := by
  have hck := checkPrefixFn_mismatch (newConn buf peer) cache h
  have hne : buf ≠ [] := by
    intro hb
    subst hb
    simp at h
  have hck' := hck
  dsimp only [newConn] at hck'
  refine ⟨hck, ?_, ?_, ?_⟩ <;> simp [connRead, newConn, hck', bufRead, hne]

/-- C5 (amended) witness: the stream `HELLO WORLD` is delivered from its
first byte by the first `Read`, with no error and no state change by the
check. -/
theorem no_marker_read_transparent_witness :
    checkPrefixFn (newConn "HELLO WORLD".data ⟨[9], 7⟩) []
      = (newConn "HELLO WORLD".data ⟨[9], 7⟩, [], none) ∧
    (connRead (newConn "HELLO WORLD".data ⟨[9], 7⟩) [] 5).2.2
      = Sum.inl "HELLO".data ∧
    (connRead (newConn "HELLO WORLD".data ⟨[9], 7⟩) [] 5).1.buf = " WORLD".data ∧
    (connRead (newConn "HELLO WORLD".data ⟨[9], 7⟩) [] 5).2.1 = ([] : Cache) := by
  have h := no_marker_read_transparent "HELLO WORLD".data ⟨[9], 7⟩ [] 5 (by decide)
  exact ⟨h.1, h.2.1.trans (by decide), h.2.2.1.trans (by decide), h.2.2.2⟩

/-- C9: when the source IP and port of a PROXY header parse but a
destination field (IP or port) is malformed, the check closes the
connection and returns an error, yet `srcAddr` was already assigned, so
`RemoteAddr` — whether it is the first call or follows any trace of
operations — returns the parsed PROXY source address rather than the
physical peer: the state is not rolled back on this error path. -/
theorem bad_dst_keeps_parsed_src_addr
    (t src dst sp dp rest : GoStr) (i1 : IPBytes) (pt1 : Int)
    (peer : TCPAddr) (cache : Cache) (ops : List Op)
    (ht : t = "TCP4".data ∨ t = "TCP6".data)
    (hsrc : cleanField src) (hdst : cleanField dst)
    (hsp : cleanField sp) (hdp : cleanField dp)
    (h1 : goParseIP src = some i1) (h2 : atoi sp = some pt1)
    (hbad : goParseIP dst = none ∨ atoi dp = none) :
    ∃ e : GoError,
      checkPrefixFn
          (newConn (mkHeaderBuf t src dst sp dp (crChar :: nlChar :: rest)) peer) cache
        = ({ buf := rest, peer := peer, srcAddr := some ⟨i1, pt1⟩, onceDone := false,
             closed := true }, cache, some e) ∧
      (connRemoteAddr
          (applyOps (newConn (mkHeaderBuf t src dst sp dp (crChar :: nlChar :: rest)) peer,
            cache) ops).1
          (applyOps (newConn (mkHeaderBuf t src dst sp dp (crChar :: nlChar :: rest)) peer,
            cache) ops).2).2.2 = ⟨i1, pt1⟩ := by
  have htc : cleanField t := by
    rcases ht with h | h <;> subst h <;> exact ⟨by decide, by decide⟩
  have hck := checkPrefixFn_header t src dst sp dp rest crChar peer cache
    htc hsrc hdst hsp hdp (by decide)
  obtain ⟨e, hval⟩ := afterFields_dstFail t src dst sp dp
    { buf := rest, peer := peer } cache i1 pt1 ht h1 h2 hbad
  have hfull := hck.trans hval
  refine ⟨e, hfull, ?_⟩
  rw [remoteAddr_after_ops _ _ _ rfl, hfull]
  rfl

/-- C9 witness: with destination IP `nope`, the source `1.2.3.4:80` is
retained and reported by `RemoteAddr` after a read. -/
theorem bad_dst_keeps_parsed_src_addr_witness :
    ∃ e : GoError,
      checkPrefixFn
          (newConn (mkHeaderBuf "TCP4".data "1.2.3.4".data "nope".data "80".data "90".data
            (crChar :: nlChar :: "Z".data)) ⟨[9], 7⟩) []
        = ({ buf := "Z".data, peer := ⟨[9], 7⟩,
             srcAddr := some ⟨[0, 0, 0, 0, 0, 0, 0, 0, 0, 0, 255, 255, 1, 2, 3, 4], 80⟩,
             onceDone := false, closed := true }, [], some e) ∧
      (connRemoteAddr
          (applyOps (newConn (mkHeaderBuf "TCP4".data "1.2.3.4".data "nope".data "80".data
            "90".data (crChar :: nlChar :: "Z".data)) ⟨[9], 7⟩, []) [.read 1]).1
          (applyOps (newConn (mkHeaderBuf "TCP4".data "1.2.3.4".data "nope".data "80".data
            "90".data (crChar :: nlChar :: "Z".data)) ⟨[9], 7⟩, []) [.read 1]).2).2.2
        = ⟨[0, 0, 0, 0, 0, 0, 0, 0, 0, 0, 255, 255, 1, 2, 3, 4], 80⟩ :=
  bad_dst_keeps_parsed_src_addr "TCP4".data "1.2.3.4".data "nope".data "80".data "90".data
    "Z".data [0, 0, 0, 0, 0, 0, 0, 0, 0, 0, 255, 255, 1, 2, 3, 4] 80 ⟨[9], 7⟩ [] [.read 1]
    (Or.inl rfl) (by exact ⟨by decide, by decide⟩) (by exact ⟨by decide, by decide⟩)
    (by exact ⟨by decide, by decide⟩) (by exact ⟨by decide, by decide⟩)
    (by decide) (by decide) (Or.inl (by decide))

/-- Lookup after insertion finds exactly the inserted record. -/
theorem getInfo_putInfo (k : GoStr) (v : ProxyProtoInfo) (c : Cache) :
    getInfo k (putInfo k v c) = some v := by
  simp [getInfo, putInfo, List.find?]

/-- C6: a successfully parsed PROXY header stores exactly one
`ProxyProtoInfo` record — protocol token, parsed source as `ClientAddr`,
parsed destination as `ProxyAddr` — in the process-wide cache, keyed by
the string form of the parsed source address; the lookup under that key
finds it, the cache grows by exactly one entry, and no later operation
on the connection ever touches the cache again. -/
theorem success_stores_cache_record
    (t src dst sp dp rest : GoStr) (i1 i2 : IPBytes) (pt1 pt2 : Int)
    (peer : TCPAddr) (cache : Cache) (o : Op) (ops : List Op)
    (ht : t = "TCP4".data ∨ t = "TCP6".data)
    (hsrc : cleanField src) (hdst : cleanField dst)
    (hsp : cleanField sp) (hdp : cleanField dp)
    (h1 : goParseIP src = some i1) (h2 : atoi sp = some pt1)
    (h3 : goParseIP dst = some i2) (h4 : atoi dp = some pt2) :
    (checkPrefixFn
        (newConn (mkHeaderBuf t src dst sp dp (crChar :: nlChar :: rest)) peer) cache).2.1
      = putInfo (tcpAddrString ⟨i1, pt1⟩) ⟨t, ⟨i1, pt1⟩, ⟨i2, pt2⟩⟩ cache ∧
    (checkPrefixFn
        (newConn (mkHeaderBuf t src dst sp dp (crChar :: nlChar :: rest)) peer) cache).2.2
      = none ∧
    getInfo (tcpAddrString ⟨i1, pt1⟩)
        (putInfo (tcpAddrString ⟨i1, pt1⟩) ⟨t, ⟨i1, pt1⟩, ⟨i2, pt2⟩⟩ cache)
      = some ⟨t, ⟨i1, pt1⟩, ⟨i2, pt2⟩⟩ ∧
    (putInfo (tcpAddrString ⟨i1, pt1⟩) ⟨t, ⟨i1, pt1⟩, ⟨i2, pt2⟩⟩ cache).length
      = cache.length + 1 ∧
    (applyOps
        (applyOp (newConn (mkHeaderBuf t src dst sp dp (crChar :: nlChar :: rest)) peer,
          cache) o) ops).2
      = putInfo (tcpAddrString ⟨i1, pt1⟩) ⟨t, ⟨i1, pt1⟩, ⟨i2, pt2⟩⟩ cache := by
  have htc : cleanField t := by
    rcases ht with h | h <;> subst h <;> exact ⟨by decide, by decide⟩
  have hck := checkPrefixFn_header t src dst sp dp rest crChar peer cache
    htc hsrc hdst hsp hdp (by decide)
  have hfull := hck.trans (afterFields_success t src dst sp dp
    { buf := rest, peer := peer } cache i1 i2 pt1 pt2 ht h1 h2 h3 h4)
  have hfresh := applyOp_fresh
    (newConn (mkHeaderBuf t src dst sp dp (crChar :: nlChar :: rest)) peer) cache o rfl
  have hstab := applyOps_checked ops _ hfresh.2.2.1
  refine ⟨by rw [hfull], by rw [hfull], getInfo_putInfo _ _ _, by simp [putInfo], ?_⟩
  rw [hstab.2.2.2, hfresh.2.2.2, hfull]

/-- C6 witness: the header `PROXY TCP4 1.2.3.4 5.6.7.8 80 90\r\n` stores
the record under key `1.2.3.4:80` and the cache stays that way. -/
theorem success_stores_cache_record_witness :
    (checkPrefixFn
        (newConn (mkHeaderBuf "TCP4".data "1.2.3.4".data "5.6.7.8".data "80".data "90".data
          (crChar :: nlChar :: "Z".data)) ⟨[9], 7⟩) []).2.1
      = putInfo (tcpAddrString ⟨[0, 0, 0, 0, 0, 0, 0, 0, 0, 0, 255, 255, 1, 2, 3, 4], 80⟩)
          ⟨"TCP4".data, ⟨[0, 0, 0, 0, 0, 0, 0, 0, 0, 0, 255, 255, 1, 2, 3, 4], 80⟩,
            ⟨[0, 0, 0, 0, 0, 0, 0, 0, 0, 0, 255, 255, 5, 6, 7, 8], 90⟩⟩ [] ∧
    (checkPrefixFn
        (newConn (mkHeaderBuf "TCP4".data "1.2.3.4".data "5.6.7.8".data "80".data "90".data
          (crChar :: nlChar :: "Z".data)) ⟨[9], 7⟩) []).2.2 = none ∧
    getInfo (tcpAddrString ⟨[0, 0, 0, 0, 0, 0, 0, 0, 0, 0, 255, 255, 1, 2, 3, 4], 80⟩)
        (putInfo (tcpAddrString ⟨[0, 0, 0, 0, 0, 0, 0, 0, 0, 0, 255, 255, 1, 2, 3, 4], 80⟩)
          ⟨"TCP4".data, ⟨[0, 0, 0, 0, 0, 0, 0, 0, 0, 0, 255, 255, 1, 2, 3, 4], 80⟩,
            ⟨[0, 0, 0, 0, 0, 0, 0, 0, 0, 0, 255, 255, 5, 6, 7, 8], 90⟩⟩ [])
      = some ⟨"TCP4".data, ⟨[0, 0, 0, 0, 0, 0, 0, 0, 0, 0, 255, 255, 1, 2, 3, 4], 80⟩,
          ⟨[0, 0, 0, 0, 0, 0, 0, 0, 0, 0, 255, 255, 5, 6, 7, 8], 90⟩⟩ ∧
    (putInfo (tcpAddrString ⟨[0, 0, 0, 0, 0, 0, 0, 0, 0, 0, 255, 255, 1, 2, 3, 4], 80⟩)
        ⟨"TCP4".data, ⟨[0, 0, 0, 0, 0, 0, 0, 0, 0, 0, 255, 255, 1, 2, 3, 4], 80⟩,
          ⟨[0, 0, 0, 0, 0, 0, 0, 0, 0, 0, 255, 255, 5, 6, 7, 8], 90⟩⟩ []).length
      = ([] : Cache).length + 1 ∧
    (applyOps
        (applyOp (newConn (mkHeaderBuf "TCP4".data "1.2.3.4".data "5.6.7.8".data "80".data
          "90".data (crChar :: nlChar :: "Z".data)) ⟨[9], 7⟩, []) .remoteAddr)
        [.read 1]).2
      = putInfo (tcpAddrString ⟨[0, 0, 0, 0, 0, 0, 0, 0, 0, 0, 255, 255, 1, 2, 3, 4], 80⟩)
          ⟨"TCP4".data, ⟨[0, 0, 0, 0, 0, 0, 0, 0, 0, 0, 255, 255, 1, 2, 3, 4], 80⟩,
            ⟨[0, 0, 0, 0, 0, 0, 0, 0, 0, 0, 255, 255, 5, 6, 7, 8], 90⟩⟩ [] :=
  success_stores_cache_record "TCP4".data "1.2.3.4".data "5.6.7.8".data "80".data "90".data
    "Z".data [0, 0, 0, 0, 0, 0, 0, 0, 0, 0, 255, 255, 1, 2, 3, 4]
    [0, 0, 0, 0, 0, 0, 0, 0, 0, 0, 255, 255, 5, 6, 7, 8] 80 90 ⟨[9], 7⟩ [] .remoteAddr
    [.read 1] (Or.inl rfl) ⟨by decide, by decide⟩ ⟨by decide, by decide⟩
    ⟨by decide, by decide⟩ ⟨by decide, by decide⟩ (by decide) (by decide) (by decide)
    (by decide)

/-- C10: the parser strips the last two bytes of the line read up to
`'\n'` without checking that the byte before `'\n'` is `'\r'`; for a
header line terminated by a bare `'\n'`, the final character of the
destination-port field is removed before parsing, and whenever the
truncated port still parses the header is accepted — with the truncated
destination port stored in the cache record — instead of being
rejected. -/
theorem bare_newline_truncates_dst_port
    (t src dst sp dp rest : GoStr) (i1 i2 : IPBytes) (pt1 pt2 : Int)
    (peer : TCPAddr) (cache : Cache)
    (ht : t = "TCP4".data ∨ t = "TCP6".data)
    (hsrc : cleanField src) (hdst : cleanField dst)
    (hsp : cleanField sp) (hdp : cleanField dp) (hdpne : dp ≠ [])
    (h1 : goParseIP src = some i1) (h2 : atoi sp = some pt1)
    (h3 : goParseIP dst = some i2) (h4 : atoi dp.dropLast = some pt2) :
    checkPrefixFn (newConn (mkHeaderBuf t src dst sp dp (nlChar :: rest)) peer) cache
      = ({ buf := rest, peer := peer, srcAddr := some ⟨i1, pt1⟩, onceDone := false,
           closed := false },
         putInfo (tcpAddrString ⟨i1, pt1⟩) ⟨t, ⟨i1, pt1⟩, ⟨i2, pt2⟩⟩ cache, none) := by
  have htc : cleanField t := by
    rcases ht with h | h <;> subst h <;> exact ⟨by decide, by decide⟩
  have hdp' : cleanField dp.dropLast :=
    ⟨fun hm => hdp.1 ((List.dropLast_sublist dp).subset hm),
     fun hm => hdp.2 ((List.dropLast_sublist dp).subset hm)⟩
  have hlast : dp.getLast hdpne ≠ nlChar :=
    fun hx => hdp.2 (hx ▸ List.getLast_mem hdpne)
  have hbufeq : mkHeaderBuf t src dst sp dp (nlChar :: rest)
      = mkHeaderBuf t src dst sp dp.dropLast (dp.getLast hdpne :: nlChar :: rest) := by
    conv_lhs => rw [← List.dropLast_append_getLast hdpne]
    simp [mkHeaderBuf, List.append_assoc]
  rw [hbufeq]
  have hck := checkPrefixFn_header t src dst sp dp.dropLast rest (dp.getLast hdpne)
    peer cache htc hsrc hdst hsp hdp' hlast
  exact hck.trans (afterFields_success t src dst sp dp.dropLast
    { buf := rest, peer := peer } cache i1 i2 pt1 pt2 ht h1 h2 h3 h4)

/-- C10 witness: `PROXY TCP4 1.2.3.4 5.6.7.8 80 12345\n` (no carriage
return) is accepted, and the stored destination port is the truncated
`1234`, not `12345`. -/
theorem bare_newline_truncates_dst_port_witness :
    checkPrefixFn (newConn (mkHeaderBuf "TCP4".data "1.2.3.4".data "5.6.7.8".data "80".data
        "12345".data (nlChar :: "Z".data)) ⟨[9], 7⟩) []
      = ({ buf := "Z".data, peer := ⟨[9], 7⟩,
           srcAddr := some ⟨[0, 0, 0, 0, 0, 0, 0, 0, 0, 0, 255, 255, 1, 2, 3, 4], 80⟩,
           onceDone := false, closed := false },
         putInfo (tcpAddrString ⟨[0, 0, 0, 0, 0, 0, 0, 0, 0, 0, 255, 255, 1, 2, 3, 4], 80⟩)
           ⟨"TCP4".data, ⟨[0, 0, 0, 0, 0, 0, 0, 0, 0, 0, 255, 255, 1, 2, 3, 4], 80⟩,
             ⟨[0, 0, 0, 0, 0, 0, 0, 0, 0, 0, 255, 255, 5, 6, 7, 8], 1234⟩⟩ [], none) :=
  bare_newline_truncates_dst_port "TCP4".data "1.2.3.4".data "5.6.7.8".data "80".data
    "12345".data "Z".data [0, 0, 0, 0, 0, 0, 0, 0, 0, 0, 255, 255, 1, 2, 3, 4]
    [0, 0, 0, 0, 0, 0, 0, 0, 0, 0, 255, 255, 5, 6, 7, 8] 80 1234 ⟨[9], 7⟩ []
    (Or.inl rfl) ⟨by decide, by decide⟩ ⟨by decide, by decide⟩ ⟨by decide, by decide⟩
    ⟨by decide, by decide⟩ (by decide) (by decide) (by decide) (by decide) (by decide)

/-- C7: with registered keys `/v1/logs/` and `/v1/stats/`, resolution
maps `/v1/logs` and `/v1/logs/` to the logs handler; `/v1/stats`,
`/v1/stats/`, `/v1/stats/1234` and `/v1/stats/1234/` to the stats
handler; and `/v1/foo` to no handler. -/
theorem getHandler_resolution :
    getHandler "/v1/logs".data [("/v1/logs/".data, 0), ("/v1/stats/".data, 1)] = some 0 ∧
    getHandler "/v1/logs/".data [("/v1/logs/".data, 0), ("/v1/stats/".data, 1)] = some 0 ∧
    getHandler "/v1/stats".data [("/v1/logs/".data, 0), ("/v1/stats/".data, 1)] = some 1 ∧
    getHandler "/v1/stats/".data [("/v1/logs/".data, 0), ("/v1/stats/".data, 1)] = some 1 ∧
    getHandler "/v1/stats/1234".data [("/v1/logs/".data, 0), ("/v1/stats/".data, 1)]
      = some 1 ∧
    getHandler "/v1/stats/1234/".data [("/v1/logs/".data, 0), ("/v1/stats/".data, 1)]
      = some 1 ∧
    getHandler "/v1/foo".data [("/v1/logs/".data, 0), ("/v1/stats/".data, 1)]
      = (none : Option Nat) := by
  refine ⟨?_, ?_, ?_, ?_, ?_, ?_, ?_⟩ <;> decide

/-- C8: the echo handler emits, for each non-empty received body `m`,
exactly one message keyed by its session key with type `Body` and body
`m ++ "-response"`, in the order received; empty bodies produce nothing;
and when the inbound channel closes it signals handler-closed for its
own key and returns. -/
theorem echoHandler_spec (key initialMessage : String) (ms : List String) :
    echoHandlerHandle key initialMessage ms
      = (ms.filter (fun m => m != "")).map
          (fun m => { Key := key, Typ := .body, Body := m ++ "-response" })
        ++ [SignalHandlerClosed key] := by
  induction ms with
  | nil => rfl
  | cons m ms ih =>
    by_cases hm : m = "" <;> simp [echoHandlerHandle, hm, ih]

end WsProxy
